import Mathlib

/-!
Shallow embedding of the two laboratory pipelines (lab_7_llm: zero-shot
classification, lab_8_sft: summarization fine-tuning) and proofs of the
specification claims about them.

Conventions of the embedding:
* a pandas cell that may hold `NaN` is an `Option`;
* a `DataFrame` is a list of row records (row order is list order);
* model and tokenizer handles are abstracted as functions (the composite
  tokenizer-plus-model of the classification lab is `String → List ℚ`
  returning the logits row for one source text; the generation lab's
  composite generate-plus-decode is `String → String`);
* Python exceptions are `Except` errors.
-/

namespace HelloLLM

/-- Canonical column names. Modelled from the spec: the `ColumnNames`
enumeration lives in `core_utils` (not under `src/`); spec §3 fixes the
canonical names `source`, `target` and the predictions columns
`target`/`prediction`. -/
def ColumnNames.SOURCE : String := "source"

/-- Canonical target column name (see `ColumnNames.SOURCE`). -/
def ColumnNames.TARGET : String := "target"

/-- Canonical prediction column name (see `ColumnNames.SOURCE`). -/
def ColumnNames.PREDICTION : String := "prediction"

namespace Lab7

/-- One raw row of the lab-7 sentiment dataset, with the columns that
`RawDataPreprocessor.transform` mentions (`src/lab_7_llm/main.py:73-80`).
Every cell may be missing. -/
structure RawRow where
  part : Option String
  movie_name : Option String
  review_id : Option String
  author : Option String
  date : Option String
  title : Option String
  grade10 : Option String
  grade3 : Option String
  content : Option String
deriving DecidableEq, Repr

/-- One clean-table row after lab-7 preprocessing: `source` text and the
integer-coded `target`, either possibly missing. -/
structure CleanRow where
  source : Option String
  target : Option Nat
deriving DecidableEq, Repr

/-- The label dictionary `{"Good": 1, "Bad": 2, "Neutral": 0}` used by
`Series.map` in `transform` (`src/lab_7_llm/main.py:77-79`); a key not in
the dictionary maps to a missing value, as `Series.map` does. -/
def labelMap : String → Option Nat
  | "Good" => some 1
  | "Bad" => some 2
  | "Neutral" => some 0
  | _ => none

/-- Pure content of `RawDataPreprocessor.transform` (`src/lab_7_llm/main.py:68-80`):
drop the seven irrelevant columns, rename `content`/`grade3` to
`source`/`target`, drop rows with a missing value, remap the target through
`labelMap`, reset the index (a no-op on lists). -/
def RawDataPreprocessor.transformedData (raw : List RawRow) : List CleanRow :=
  ((raw.map fun r => (r.content, r.grade3)).filter
      fun rc => rc.1.isSome && rc.2.isSome).map
    fun rc => ⟨rc.1, rc.2.bind labelMap⟩

/-- State of a lab-7 `RawDataPreprocessor`: the raw table `_raw_data` and the
clean table `_data`. -/
structure RawDataPreprocessorState where
  raw_data : List RawRow
  data : List CleanRow

/-- The `transform` method as a state transformer: it reads `_raw_data`
(unchanged — every pandas operation used returns a copy) and overwrites
`_data`. -/
def RawDataPreprocessor.transform (st : RawDataPreprocessorState) :
    RawDataPreprocessorState :=
  { st with data := RawDataPreprocessor.transformedData st.raw_data }

end Lab7

namespace Lab8

/-- One raw row of the lab-8 summarization dataset with the columns used by
`RawDataPreprocessor.transform` (`src/lab_8_sft/main.py:68-77`). -/
structure RawRow where
  id : Option String
  article : Option String
  highlights : Option String
deriving DecidableEq, Repr

/-- One clean-table row after lab-8 preprocessing: both columns are free
text and may be missing (no `dropna` is performed in lab 8). -/
structure CleanRow where
  source : Option String
  target : Option String
deriving DecidableEq, Repr

/-- The `DataFrame.drop_duplicates` operation: keep the first occurrence of
each row, drop later equal rows (pandas treats missing cells as equal to
each other here, as does `Option` equality). -/
def dropDuplicates {α : Type} [DecidableEq α] : List α → List α
  | [] => []
  | x :: xs => x :: dropDuplicates (xs.filter fun y => y != x)
termination_by l => l.length
decreasing_by
  simp only [List.length_cons]
  exact Nat.lt_succ_of_le (List.length_filter_le _ _)

/-- Pure content of lab-8 `RawDataPreprocessor.transform`
(`src/lab_8_sft/main.py:68-77`): drop `id`, rename `highlights`/`article`
to `target`/`source`, drop duplicate rows, then replace every literal
occurrence of `"(CNN)"` in the source column (missing cells stay missing),
and reset the index. No missing rows are dropped. -/
def RawDataPreprocessor.transformedData (raw : List RawRow) : List CleanRow :=
  (dropDuplicates (raw.map fun r => CleanRow.mk r.article r.highlights)).map
    fun r => { r with source := r.source.map fun s => s.replace "(CNN)" "" }

/-- State of a lab-8 `RawDataPreprocessor`. -/
structure RawDataPreprocessorState where
  raw_data : List RawRow
  data : List CleanRow

/-- The lab-8 `transform` method as a state transformer. -/
def RawDataPreprocessor.transform (st : RawDataPreprocessorState) :
    RawDataPreprocessorState :=
  { st with data := RawDataPreprocessor.transformedData st.raw_data }

end Lab8

/-- Python exceptions that the pipelines raise. -/
inductive PipeError where
  | valueError (msg : String)
  | typeError (msg : String)
deriving DecidableEq, Repr

/-- The index of the first maximal entry of a logits row, as computed by
`torch.argmax(outputs.logits, dim=1)` for one row. -/
def argmaxIdx (l : List ℚ) : Nat :=
  (l.enum.foldl (fun best ix => if best.2 < ix.2 then ix else best)
    (0, l.headD 0)).1

/-- The batching of `torch.utils.data.DataLoader`: consecutive chunks of
`batchSize` items, the last chunk possibly shorter.  (A `DataLoader` is
only defined for a positive batch size.) -/
def toBatches (batchSize : Nat) : List α → List (List α)
  | [] => []
  | x :: xs => (x :: xs).take batchSize :: toBatches batchSize (xs.drop (batchSize - 1))
termination_by l => l.length
decreasing_by
  simp only [List.length_cons, List.length_drop]
  omega

namespace Lab7

/-- The label rendering of lab-7 `LLMPipeline._infer_batch`
(`src/lab_7_llm/main.py:246`): `str(i) if i != 0 else "2"` applied to each
arg-max index. -/
def remapLabel (i : Nat) : String :=
  if i ≠ 0 then Nat.repr i else "2"

/-- Lab-7 `LLMPipeline._infer_batch` (`src/lab_7_llm/main.py:221-246`) with
the tokenizer-plus-model composite abstracted as `logits`: tokenize the
batch's source texts, run the model, take the per-row arg-max, and render
each index through `remapLabel`. -/
def LLMPipeline.inferBatch (logits : String → List ℚ) (batch : List String) :
    List String :=
  ((batch.map logits).map argmaxIdx).map remapLabel

/-- State of a lab-7 `LLMPipeline`: the optional model handle (the loaded
composite, `none` when no model is assigned), the wrapped dataset's rows
(source text and target of type `α`), and the constructor parameters. -/
structure LLMPipelineState (α : Type) where
  model : Option (String → List ℚ)
  dataset : List (String × α)
  max_length : Nat
  batch_size : Nat
  device : String

/-- Lab-7 `LLMPipeline.infer_sample` (`src/lab_7_llm/main.py:180-194`):
raise `ValueError("There is no model")` when no model is loaded, otherwise
return element 0 of `_infer_batch` on the single-item batch. -/
def LLMPipeline.infer_sample (p : LLMPipelineState α) (sample : String) :
    Except PipeError String :=
  match p.model with
  | none => .error (.valueError "There is no model")
  | some m => .ok ((LLMPipeline.inferBatch m [sample]).headD "")

/-- Lab-7 `LLMPipeline.infer_dataset` (`src/lab_7_llm/main.py:197-218`):
batch the dataset's sources through `_infer_batch` and pair the dataset's
target column with the concatenated predictions.  (`_infer_batch` itself
raises the no-model `ValueError` when a batch is processed without a
loaded model.) -/
def LLMPipeline.infer_dataset (p : LLMPipelineState α) :
    Except PipeError (List (α × String)) :=
  match p.model with
  | none => if p.dataset.isEmpty then .ok [] else .error (.valueError "There is no model")
  | some m =>
      let preds :=
        ((toBatches p.batch_size (p.dataset.map Prod.fst)).map
          (LLMPipeline.inferBatch m)).flatten
      .ok ((p.dataset.map Prod.snd).zip preds)

end Lab7

namespace Lab8

/-- Lab-8 `LLMPipeline._infer_batch` (`src/lab_8_sft/main.py:295-321`) with
the tokenize-generate-decode composite abstracted as `gen`: each source
text of the batch is decoded to one prediction string (`str` applied to a
string is the string itself). -/
def LLMPipeline.inferBatch (gen : String → String) (batch : List String) :
    List String :=
  batch.map gen

/-- State of a lab-8 `LLMPipeline`. -/
structure LLMPipelineState (α : Type) where
  model : Option (String → String)
  dataset : List (String × α)
  max_length : Nat
  batch_size : Nat
  device : String

/-- Lab-8 `LLMPipeline.infer_sample` (`src/lab_8_sft/main.py:256-270`). -/
def LLMPipeline.infer_sample (p : LLMPipelineState α) (sample : String) :
    Except PipeError String :=
  match p.model with
  | none => .error (.valueError "There is no model")
  | some m => .ok ((LLMPipeline.inferBatch m [sample]).headD "")

/-- Lab-8 `LLMPipeline.infer_dataset` (`src/lab_8_sft/main.py:272-293`). -/
def LLMPipeline.infer_dataset (p : LLMPipelineState α) :
    Except PipeError (List (α × String)) :=
  match p.model with
  | none => if p.dataset.isEmpty then .ok [] else .error (.valueError "There is no model")
  | some m =>
      let preds :=
        ((toBatches p.batch_size (p.dataset.map Prod.fst)).map
          (LLMPipeline.inferBatch m)).flatten
      .ok ((p.dataset.map Prod.snd).zip preds)

/-- HuggingFace tokenization with `padding="max_length"`, `truncation=True`:
the raw token-id sequence is truncated to `maxLen` and padded with `padId`
up to `maxLen`; the attention mask is 1 on real tokens and 0 on padding. -/
def hfTokenizeMaxLength (tok : String → List Nat) (padId : Nat) (maxLen : Nat)
    (text : String) : List Nat × List Nat :=
  let ids := (tok text).take maxLen
  (ids ++ List.replicate (maxLen - ids.length) padId,
   List.replicate ids.length 1 ++ List.replicate (maxLen - ids.length) 0)

/-- One pre-tokenized training sample: `input_ids`, `attention_mask` and
`labels`. -/
structure TokenizedSample where
  input_ids : List Nat
  attention_mask : List Nat
  labels : List Nat
deriving DecidableEq, Repr

/-- Lab-8 `tokenize_sample` (`src/lab_8_sft/main.py:127-157`): tokenize the
sample's source and target with `padding="max_length"`, `truncation=True`
and the literal `max_length=120` (the `max_length` parameter of the
function is not used by its body); return the source encoding as
`input_ids`/`attention_mask` and the target's ids as `labels`.  The sample
is the pair (source text, target text); the tokenizer is abstracted as
`tok`/`padId`. -/
def tokenize_sample (sample : String × String) (tok : String → List Nat)
    (padId : Nat) (max_length : Nat) : TokenizedSample :=
  let tokenized_source := hfTokenizeMaxLength tok padId 120 sample.1
  let tokenized_target := hfTokenizeMaxLength tok padId 120 sample.2
  { input_ids := tokenized_source.1
    attention_mask := tokenized_source.2
    labels := tokenized_target.1 }

/-- Lab-8 `TokenizedTaskDataset.__init__` (`src/lab_8_sft/main.py:161-181`):
apply `tokenize_sample` to every clean-table row. -/
def TokenizedTaskDataset (data : List (String × String))
    (tok : String → List Nat) (padId : Nat) (max_length : Nat) :
    List TokenizedSample :=
  data.map fun sample => tokenize_sample sample tok padId max_length

/-- The `SFTParams` fine-tuning settings record (fields used by
`SFTPipeline`); unset entries are `none`. -/
structure SFTParams where
  finetuned_model_path : Option String
  max_fine_tuning_steps : Option Nat
  batch_size : Option Nat
  learning_rate : Option ℚ
  device : String

/-- State of a lab-8 `SFTPipeline` after `__init__`
(`src/lab_8_sft/main.py:367-384`): the hyperparameters copied from
`SFTParams` and a flag recording whether the wrapped model object is a
`torch.nn.Module` (the `isinstance` check in `run`). -/
structure SFTPipelineState where
  model_is_torch_module : Bool
  finetuned_model_path : Option String
  max_steps : Option Nat
  per_device_train_batch_size : Option Nat
  learning_rate : Option ℚ
  device : String

/-- The observable outcome of `SFTPipeline.run`: either the silent skip of
the unset-hyperparameter guard (no training step, no directory creation,
no error), a raised `TypeError`, or a completed bounded-step training run
with the merged model and tokenizer persisted to the output directory. -/
inductive SFTOutcome where
  | skipped
  | typeError (msg : String)
  | finetuned (output_dir : String) (maxSteps : Nat) (batchSize : Nat)
      (learningRate : ℚ) (save_strategy : String) (use_cpu : Bool)
      (saved_merged_model : Bool) (saved_tokenizer : Bool)
deriving DecidableEq

/-- Lab-8 `SFTPipeline.run` (`src/lab_8_sft/main.py:387-415`): return
without effect when any of the output path, batch size, step budget or
learning rate is `None`; otherwise check the model is a `torch.nn.Module`,
train for `max_steps` steps with `save_strategy="no"`, merge the adapter
and persist model and tokenizer to the output directory. -/
def SFTPipeline.run (p : SFTPipelineState) : SFTOutcome :=
  match p.finetuned_model_path, p.per_device_train_batch_size,
      p.max_steps, p.learning_rate with
  | some path, some bs, some steps, some lr =>
      if ¬ p.model_is_torch_module then .typeError "Wrong class of model"
      else .finetuned path steps bs lr "no" (p.device == "cpu") true true
  | _, _, _, _ => .skipped

/-- Metric identifiers. Modelled from the spec: the `Metrics` enumeration
lives in `core_utils` (not under `src/`); spec §3 calls it "a fixed
enumerated metric identifier", i.e. a plain Python `Enum` whose members
carry string values, so a member is a distinct object from its value
string. -/
inductive Metrics where
  | bleu
  | rouge
  | accuracy
  | f1
deriving DecidableEq, Repr, BEq

/-- The string value of each metric identifier. -/
def Metrics.value : Metrics → String
  | .bleu => "bleu"
  | .rouge => "rouge"
  | .accuracy => "accuracy"
  | .f1 => "f1"

/-- A Python value as compared by `==` in the evaluator: either a `Metrics`
enumeration member or a string.  A plain-`Enum` member compares unequal to
every string, including its own `.value`. -/
inductive PyVal where
  | member (m : Metrics)
  | str (s : String)
deriving DecidableEq

/-- Python `==` on `PyVal`: members compare by identity within the
enumeration, strings by content, and a member is never equal to a
string. -/
def pyEq : PyVal → PyVal → Bool
  | .member a, .member b => a == b
  | .str a, .str b => a == b
  | _, _ => false

/-- One call to `evaluate.load`: the metric name and the optional `seed`
keyword argument. -/
structure LoadCall where
  name : String
  seed : Option Nat
deriving DecidableEq, Repr

/-- Lab-8 `TaskEvaluator.__init__` scorer loading
(`src/lab_8_sft/main.py:329-340`): for each requested metric,
`load(metric.value, seed=77)` if `metric == Metrics.ROUGE.value` and
`load(metric.value)` otherwise. -/
def TaskEvaluator.metrics_dict (metrics : List Metrics) : List LoadCall :=
  metrics.map fun metric =>
    if pyEq (.member metric) (.str Metrics.rouge.value) then
      { name := metric.value, seed := some 77 }
    else
      { name := metric.value, seed := none }

end Lab8

namespace Csv

/-- A CSV cell, as the list of its characters. -/
abbrev Cell := List Char

/-- A cell must be quoted by the csv writer (`QUOTE_MINIMAL`) when it
contains a delimiter, a quote character or a line break. -/
def needsQuoting (c : Cell) : Bool :=
  c.any fun ch => ch == ',' || ch == '"' || ch == '\n' || ch == '\r'

/-- Double every quote character inside a quoted cell. -/
def escapeQuotes : Cell → Cell
  | [] => []
  | c :: r => if c = '"' then '"' :: '"' :: escapeQuotes r else c :: escapeQuotes r

/-- Encode one cell as the csv writer does: verbatim when no quoting is
needed, otherwise wrapped in quotes with inner quotes doubled. -/
def encodeCell (c : Cell) : Cell :=
  if needsQuoting c then '"' :: (escapeQuotes c ++ ['"']) else c

/-- Encode one row: the encoded cells joined with commas. -/
def encodeLine (cells : List Cell) : Cell :=
  List.intercalate [','] (cells.map encodeCell)

/-- Encode a whole file: each row followed by a line feed. -/
def encodeCsv (rows : List (List Cell)) : Cell :=
  (rows.map fun r => encodeLine r ++ ['\n']).flatten

/-- The csv reader's record parser, a quote-aware state machine over the
file's characters: `q` says whether we are inside a quoted cell, `cell`
accumulates the current cell reversed, `row` accumulates the current row's
finished cells reversed. -/
def parseAux : Bool → Cell → List Cell → Cell → List (List Cell)
  | _, cell, row, [] =>
      if cell.isEmpty && row.isEmpty then [] else [(cell.reverse :: row).reverse]
  | true, cell, row, ch :: rest =>
      if ch = '"' then
        if rest.head? = some '"' then parseAux true ('"' :: cell) row rest.tail
        else parseAux false cell row rest
      else parseAux true (ch :: cell) row rest
  | false, cell, row, ch :: rest =>
      if ch = ',' then parseAux false [] (cell.reverse :: row) rest
      else if ch = '\n' then (cell.reverse :: row).reverse :: parseAux false [] [] rest
      else if ch = '"' then parseAux true cell row rest
      else parseAux false (ch :: cell) row rest
termination_by _ _ _ l => l.length
decreasing_by
  all_goals simp only [List.length_cons, List.length_tail]
  all_goals omega

/-- Parse a csv file into its rows of cells. -/
def parseCsv (s : Cell) : List (List Cell) :=
  parseAux false [] [] s

/-- The rows `pandas.read_csv` sees: parsed rows with blank lines
skipped (`skip_blank_lines=True`). -/
def readRows (s : Cell) : List (List Cell) :=
  (parseCsv s).filter fun r => r != [[]]

/-- Column extraction `df[name]` after `read_csv`: locate `name` in the
header row and project every data row onto that position. -/
def readColumn (s : Cell) (name : Cell) : Option (List Cell) :=
  match readRows s with
  | [] => none
  | header :: dataRows =>
      match header.indexOf? name with
      | none => none
      | some j => some (dataRows.map fun r => r.getD j [])

/-- The in-memory predictions frame produced by `infer_dataset`, at the
cell-text level: one (target, prediction) pair per dataset row. -/
abbrev PredFrame := List (Cell × Cell)

/-- The header row of `dataset_inference.to_csv(predictions_path)` as
called in `src/lab_7_llm/start.py:47`: `to_csv` with the default
`index=True` writes `,target,prediction` — a leading unnamed index column
before the two data columns. -/
def predHeader : List Cell :=
  [[], ColumnNames.TARGET.data, ColumnNames.PREDICTION.data]

/-- The data rows `to_csv` writes: row `i` is the decimal index `i`, the
target cell and the prediction cell. -/
def predRows (frame : PredFrame) : List (List Cell) :=
  frame.enum.map fun ip => [(Nat.repr ip.1).data, ip.2.1, ip.2.2]

/-- The whole written file: header row then one data row per frame row. -/
def to_csv (frame : PredFrame) : Cell :=
  encodeCsv (predHeader :: predRows frame)

/-- The target/prediction pairs the `TaskEvaluator` consumes
(`src/lab_7_llm/main.py:276-281`): `read_csv` the file and zip the `target`
and `prediction` columns. -/
def evaluatorPairs (file : Cell) : Option (List (Cell × Cell)) :=
  match readColumn file ColumnNames.TARGET.data,
      readColumn file ColumnNames.PREDICTION.data with
  | some ts, some ps => some (ts.zip ps)
  | _, _ => none

/-- A cell is plain when it contains no delimiter, quote or line-break
character, so the csv writer emits it verbatim. -/
def plainCell (c : Cell) : Prop :=
  ∀ ch ∈ c, ch ≠ ',' ∧ ch ≠ '"' ∧ ch ≠ '\n' ∧ ch ≠ '\r'

instance (c : Cell) : Decidable (plainCell c) := by
  unfold plainCell
  infer_instance

end Csv

/-! Helper lemmas (shared across the claim proofs). -/

/-- Only the digit 0 renders as the character `0`. -/
lemma digitChar_eq_zero : ∀ m, m < 10 → Nat.digitChar m = '0' → m = 0 := by
  decide

/-- With sufficient fuel, `Nat.toDigitsCore` produces the single character
`0` only for the number 0 with an empty accumulator. -/
lemma toDigitsCore_eq_singleton_zero :
    ∀ fuel n acc, n < fuel → Nat.toDigitsCore 10 fuel n acc = ['0'] →
      n = 0 ∧ acc = [] := by
  intro fuel
  induction fuel with
  | zero => intro n acc hn; omega
  | succ f ih =>
      intro n acc hn h
      rw [Nat.toDigitsCore] at h
      by_cases hq : n / 10 = 0
      · simp only [hq, if_pos rfl] at h
        obtain ⟨hd, hacc⟩ := List.cons.injEq .. ▸ h
        have hmod : n % 10 = 0 := digitChar_eq_zero _ (Nat.mod_lt _ (by omega)) hd
        exact ⟨by omega, hacc⟩
      · simp only [hq, if_neg hq] at h
        have hlt : n / 10 < f := by
          have h1 : 0 < n := by
            by_contra hc
            exact hq (by omega)
          have := Nat.div_lt_self h1 (by omega : 1 < 10)
          omega
        obtain ⟨h0, hacc⟩ := ih (n / 10) _ hlt h
        exact absurd h0 hq

/-- Only the number 0 has the decimal representation `"0"`. -/
lemma repr_eq_zero_string (n : Nat) (h : Nat.repr n = "0") : n = 0 := by
  have h' : Nat.toDigits 10 n = ['0'] := by
    have := congrArg String.data h
    simpa [Nat.repr, List.asString] using this
  exact (toDigitsCore_eq_singleton_zero (n + 1) n [] (Nat.lt_succ_self n)
    (by simpa [Nat.toDigits] using h')).1

/-- Batches of a positive batch size concatenate back to the list. -/
lemma toBatches_flatten (k : Nat) (hk : 0 < k) (l : List α) :
    (toBatches k l).flatten = l := by
  obtain ⟨k', rfl⟩ : ∃ k', k = k' + 1 := ⟨k - 1, by omega⟩
  suffices h : ∀ n (l : List α), l.length ≤ n → (toBatches (k' + 1) l).flatten = l by
    exact h l.length l le_rfl
  intro n
  induction n with
  | zero =>
      intro l hl
      have hl0 : l = [] := List.length_eq_zero.mp (by omega)
      subst hl0
      simp [toBatches]
  | succ n ih =>
      intro l hl
      cases l with
      | nil => simp [toBatches]
      | cons x xs =>
          rw [toBatches]
          simp only [List.flatten_cons, Nat.add_sub_cancel, List.take_succ_cons]
          rw [ih (xs.drop k') (by simp at hl ⊢; omega)]
          simp [List.take_append_drop]

namespace Csv

/-- A plain cell needs no quoting. -/
lemma needsQuoting_eq_false {c : Cell} (h : plainCell c) :
    needsQuoting c = false := by
  simp only [needsQuoting, List.any_eq_false]
  intro ch hch
  obtain ⟨h1, h2, h3, h4⟩ := h ch hch
  simp [h1, h2, h3, h4]

/-- A plain cell is written verbatim. -/
lemma encodeCell_plain {c : Cell} (h : plainCell c) : encodeCell c = c := by
  simp [encodeCell, needsQuoting_eq_false h]

/-- Consuming a plain cell followed by a comma finishes the current cell. -/
lemma parseAux_plain_comma :
    ∀ (c : Cell), plainCell c → ∀ (acc : Cell) (row : List Cell) (rest : Cell),
      parseAux false acc row (c ++ ',' :: rest)
        = parseAux false [] ((acc.reverse ++ c) :: row) rest := by
  intro c
  induction c with
  | nil =>
      intro _ acc row rest
      simp [parseAux]
  | cons ch c' ih =>
      intro h acc row rest
      obtain ⟨h1, h2, h3, _⟩ := h ch (List.mem_cons_self ch c')
      rw [List.cons_append, parseAux, if_neg h1, if_neg h3, if_neg h2,
        ih (fun x hx => h x (List.mem_cons_of_mem ch hx)) (ch :: acc) row rest]
      simp

/-- Consuming a plain cell followed by a line feed finishes the row. -/
lemma parseAux_plain_newline :
    ∀ (c : Cell), plainCell c → ∀ (acc : Cell) (row : List Cell) (rest : Cell),
      parseAux false acc row (c ++ '\n' :: rest)
        = ((acc.reverse ++ c) :: row).reverse :: parseAux false [] [] rest := by
  intro c
  induction c with
  | nil =>
      intro _ acc row rest
      simp [parseAux]
  | cons ch c' ih =>
      intro h acc row rest
      obtain ⟨h1, h2, h3, _⟩ := h ch (List.mem_cons_self ch c')
      rw [List.cons_append, parseAux, if_neg h1, if_neg h3, if_neg h2,
        ih (fun x hx => h x (List.mem_cons_of_mem ch hx)) (ch :: acc) row rest]
      simp

/-- The one-cell case of `List.intercalate`. -/
lemma intercalate_one (s : Cell) (c : Cell) : List.intercalate s [c] = c := by
  simp [List.intercalate]

/-- The unfolding step of `List.intercalate` on two or more chunks. -/
lemma intercalate_cons_two (s : Cell) (a b : Cell) (l : List Cell) :
    List.intercalate s (a :: b :: l) = a ++ s ++ List.intercalate s (b :: l) := by
  simp [List.intercalate, List.intersperse_cons_cons]

/-- A cell the writer leaves unquoted is plain. -/
lemma plainCell_of_needsQuoting_eq_false {c : Cell} (h : needsQuoting c = false) :
    plainCell c := by
  intro ch hch
  have h2 := (List.any_eq_false.mp h) ch hch
  simp only [Bool.or_eq_true, beq_iff_eq, not_or] at h2
  exact ⟨h2.1.1.1, h2.1.1.2, h2.1.2, h2.2⟩

/-- One comma outside quotes finishes the current cell. -/
lemma parseAux_comma (acc : Cell) (row : List Cell) (rest : Cell) :
    parseAux false acc row (',' :: rest) = parseAux false [] (acc.reverse :: row) rest := by
  simp [parseAux]

/-- One line feed outside quotes finishes the current row. -/
lemma parseAux_newline (acc : Cell) (row : List Cell) (rest : Cell) :
    parseAux false acc row ('\n' :: rest)
      = (acc.reverse :: row).reverse :: parseAux false [] [] rest := by
  simp [parseAux]

/-- A quote outside quotes opens a quoted cell. -/
lemma parseAux_open_quote (acc : Cell) (row : List Cell) (rest : Cell) :
    parseAux false acc row ('"' :: rest) = parseAux true acc row rest := by
  simp [parseAux]

/-- A doubled quote inside quotes is one literal quote character. -/
lemma parseAux_quoted_pair (acc : Cell) (row : List Cell) (rest : Cell) :
    parseAux true acc row ('"' :: '"' :: rest) = parseAux true ('"' :: acc) row rest := by
  rw [parseAux]
  simp

/-- A quote inside quotes not followed by another quote closes the cell. -/
lemma parseAux_close_quote (acc : Cell) (row : List Cell) (r0 : Char) (h : r0 ≠ '"')
    (rest : Cell) :
    parseAux true acc row ('"' :: r0 :: rest) = parseAux false acc row (r0 :: rest) := by
  rw [parseAux]
  simp [h]

/-- A closing quote at the end of the input. -/
lemma parseAux_close_quote_eof (acc : Cell) (row : List Cell) :
    parseAux true acc row ['"'] = parseAux false acc row [] := by
  simp [parseAux]

/-- Any non-quote character inside quotes is consumed literally. -/
lemma parseAux_quoted_char (acc : Cell) (row : List Cell) (ch : Char) (h : ch ≠ '"')
    (rest : Cell) :
    parseAux true acc row (ch :: rest) = parseAux true (ch :: acc) row rest := by
  rw [parseAux, if_neg h]

/-- Consuming the quote-escaped body of a cell up to its closing quote
yields the cell's characters, provided the closing quote is not followed
by another quote (in the encoding it is always followed by a separator or
the end of the file). -/
lemma parseAux_quoted_run :
    ∀ (c : Cell) (acc : Cell) (row : List Cell) (rest : Cell),
      rest.head? ≠ some '"' →
      parseAux true acc row (escapeQuotes c ++ '"' :: rest)
        = parseAux false (c.reverse ++ acc) row rest := by
  intro c
  induction c with
  | nil =>
      intro acc row rest hrest
      cases rest with
      | nil => simpa [escapeQuotes] using parseAux_close_quote_eof acc row
      | cons r0 rest' =>
          have h0 : r0 ≠ '"' := by
            intro h
            exact hrest (by rw [h]; rfl)
          simpa [escapeQuotes] using parseAux_close_quote acc row r0 h0 rest'
  | cons ch c' ih =>
      intro acc row rest hrest
      by_cases hq : ch = '"'
      · subst hq
        rw [show escapeQuotes ('"' :: c') = '"' :: '"' :: escapeQuotes c' from by
            simp [escapeQuotes],
          List.cons_append, List.cons_append, parseAux_quoted_pair,
          ih ('"' :: acc) row rest hrest]
        simp
      · rw [show escapeQuotes (ch :: c') = ch :: escapeQuotes c' from by
            simp [escapeQuotes, hq],
          List.cons_append, parseAux_quoted_char acc row ch hq,
          ih (ch :: acc) row rest hrest]
        simp

/-- Consuming one encoded cell followed by a comma finishes the cell,
quoted or not. -/
lemma parseAux_cell_comma (c : Cell) (acc : Cell) (row : List Cell) (rest : Cell) :
    parseAux false acc row (encodeCell c ++ ',' :: rest)
      = parseAux false [] ((acc.reverse ++ c) :: row) rest := by
  by_cases hq : needsQuoting c
  · rw [encodeCell, if_pos hq]
    rw [show ('"' :: (escapeQuotes c ++ ['"'])) ++ ',' :: rest
        = '"' :: (escapeQuotes c ++ '"' :: ',' :: rest) from by simp,
      parseAux_open_quote,
      parseAux_quoted_run c acc row (',' :: rest) (by simp),
      parseAux_comma]
    simp
  · rw [encodeCell, if_neg hq]
    exact parseAux_plain_comma c
      (plainCell_of_needsQuoting_eq_false (Bool.of_not_eq_true hq)) acc row rest

/-- Consuming one encoded cell followed by a line feed finishes the row,
quoted or not. -/
lemma parseAux_cell_newline (c : Cell) (acc : Cell) (row : List Cell) (rest : Cell) :
    parseAux false acc row (encodeCell c ++ '\n' :: rest)
      = ((acc.reverse ++ c) :: row).reverse :: parseAux false [] [] rest := by
  by_cases hq : needsQuoting c
  · rw [encodeCell, if_pos hq]
    rw [show ('"' :: (escapeQuotes c ++ ['"'])) ++ '\n' :: rest
        = '"' :: (escapeQuotes c ++ '"' :: '\n' :: rest) from by simp,
      parseAux_open_quote,
      parseAux_quoted_run c acc row ('\n' :: rest) (by simp),
      parseAux_newline]
    simp
  · rw [encodeCell, if_neg hq]
    exact parseAux_plain_newline c
      (plainCell_of_needsQuoting_eq_false (Bool.of_not_eq_true hq)) acc row rest

/-- Parsing one encoded line of arbitrary cells, terminated by a line
feed, yields exactly that row of cells. -/
lemma parseAux_encoded_line :
    ∀ (cs : List Cell) (c : Cell) (acc : Cell) (row : List Cell) (rest : Cell),
      parseAux false acc row (encodeLine (c :: cs) ++ '\n' :: rest)
        = (row.reverse ++ (acc.reverse ++ c) :: cs) :: parseAux false [] [] rest := by
  intro cs
  induction cs with
  | nil =>
      intro c acc row rest
      rw [show encodeLine [c] = encodeCell c from by
          rw [encodeLine, List.map_cons, List.map_nil, intercalate_one],
        parseAux_cell_newline c acc row rest]
      simp
  | cons c' cs' ih =>
      intro c acc row rest
      rw [show encodeLine (c :: c' :: cs') ++ '\n' :: rest
          = encodeCell c ++ ',' :: (encodeLine (c' :: cs') ++ '\n' :: rest) from by
            simp [encodeLine, intercalate_cons_two],
        parseAux_cell_comma c acc row _,
        ih c' [] ((acc.reverse ++ c) :: row) rest]
      simp

/-- Parsing the encoding of any rows of nonempty cells recovers the rows:
the writer's quoting and the reader's unquoting cancel. -/
lemma parseCsv_encodeCsv_rows :
    ∀ (rows : List (List Cell)), (∀ r ∈ rows, r ≠ []) →
      parseCsv (encodeCsv rows) = rows := by
  intro rows
  induction rows with
  | nil =>
      intro _
      simp [parseCsv, encodeCsv, parseAux]
  | cons r rows' ih =>
      intro h
      obtain ⟨c, cs, rfl⟩ : ∃ c cs, r = c :: cs := by
        cases r with
        | nil => exact absurd rfl (h [] (List.mem_cons_self [] rows'))
        | cons c cs => exact ⟨c, cs, rfl⟩
      have henc : encodeCsv ((c :: cs) :: rows')
          = encodeLine (c :: cs) ++ '\n' :: encodeCsv rows' := by
        show encodeLine (c :: cs) ++ ['\n'] ++ encodeCsv rows' = _
        simp
      rw [henc, parseCsv, parseAux_encoded_line cs c [] [] (encodeCsv rows')]
      rw [show parseAux false [] [] (encodeCsv rows') = parseCsv (encodeCsv rows') from rfl,
        ih fun x hx => h x (List.mem_cons_of_mem _ hx)]
      simp

end Csv

/-- The length of an encoding padded or truncated to `maxLen` is `maxLen`
(sequence and mask alike). -/
lemma hfTokenizeMaxLength_length (tok : String → List Nat) (padId maxLen : Nat)
    (text : String) :
    (Lab8.hfTokenizeMaxLength tok padId maxLen text).1.length = maxLen ∧
    (Lab8.hfTokenizeMaxLength tok padId maxLen text).2.length = maxLen := by
  constructor <;>
    · simp only [Lab8.hfTokenizeMaxLength, List.length_append, List.length_replicate,
        List.length_take]
      omega

/-- The remapped label string is never the class-code string `"0"`. -/
lemma remapLabel_ne_zero_string (i : Nat) : Lab7.remapLabel i ≠ "0" := by
  by_cases hi : i = 0
  · subst hi
    simp [Lab7.remapLabel]
  · simp only [Lab7.remapLabel, if_pos hi]
    exact fun h => hi (repr_eq_zero_string i h)

/-! Claim theorems. -/

/-- C1 (counterexample): the claim says an arg-max class index of 2 is
remapped to the string `"0"`; on a batch whose logits give arg-max index
2, `_infer_batch` in fact returns `"2"`, not `"0"`. -/
theorem infer_batch_argmax_two_not_swapped :
    Lab7.LLMPipeline.inferBatch (fun _ => [0, 0, 1]) ["good movie"] = ["2"] ∧
    (Lab7.LLMPipeline.inferBatch (fun _ => [0, 0, 1]) ["good movie"] == ["0"]) = false := by
  constructor <;> decide

/-- C1 (amended): batch inference returns, for each input, the arg-max
class index of the model logits rendered through a fixed remapping that
sends index 0 to the string `"2"` and every nonzero index — index 2
included — to its own decimal string (so the swap is one-directional and
`"0"` is never produced). -/
theorem infer_batch_remap_characterization :
    (∀ (logits : String → List ℚ) (batch : List String),
      Lab7.LLMPipeline.inferBatch logits batch
        = batch.map fun s => Lab7.remapLabel (argmaxIdx (logits s))) ∧
    Lab7.remapLabel 0 = "2" ∧
    ∀ i : Nat, i ≠ 0 → Lab7.remapLabel i = Nat.repr i := by
  refine ⟨fun logits batch => ?_, by simp [Lab7.remapLabel], fun i hi => ?_⟩
  · simp [Lab7.LLMPipeline.inferBatch, List.map_map, Function.comp]
  · simp [Lab7.remapLabel, hi]

/-- Witness for C1's amended theorem at the concrete nonzero index 5. -/
theorem infer_batch_remap_characterization_witness :
    Lab7.remapLabel 5 = Nat.repr 5 :=
  infer_batch_remap_characterization.2.2 5 (by decide)

/-- C2: `SFTPipeline.run` returns without effect — no training step, no
output-directory creation, no error — whenever any of the output path,
batch size, step budget or learning rate is unset. -/
theorem sft_run_skips_when_hyperparameter_unset :
    ∀ p : Lab8.SFTPipelineState,
      p.finetuned_model_path = none ∨ p.per_device_train_batch_size = none ∨
        p.max_steps = none ∨ p.learning_rate = none →
      Lab8.SFTPipeline.run p = .skipped := by
  intro p h
  obtain ⟨mod, path, steps, bs, lr, dev⟩ := p
  cases path <;> cases bs <;> cases steps <;> cases lr <;>
    first
      | rfl
      | (exfalso; rcases h with h | h | h | h <;> simp_all)

/-- Witness for C2: a pipeline with `max_fine_tuning_steps = None` (and the
other hyperparameters set) is silently skipped. -/
theorem sft_run_skips_witness :
    Lab8.SFTPipeline.run ⟨true, some "dist/finetuned", none, some 1, some 1, "cpu"⟩
      = .skipped :=
  sft_run_skips_when_hyperparameter_unset _ (Or.inr (Or.inr (Or.inl rfl)))

/-- C3: `transform()` applied twice to an unchanged raw table yields the
same clean table as applied once, in both labs — `transform` reads only
`_raw_data`, which it never mutates. -/
theorem transform_idempotent_on_same_raw_table :
    (∀ st : Lab7.RawDataPreprocessorState,
      (Lab7.RawDataPreprocessor.transform (Lab7.RawDataPreprocessor.transform st)).data
        = (Lab7.RawDataPreprocessor.transform st).data) ∧
    (∀ st : Lab8.RawDataPreprocessorState,
      (Lab8.RawDataPreprocessor.transform (Lab8.RawDataPreprocessor.transform st)).data
        = (Lab8.RawDataPreprocessor.transform st).data) :=
  ⟨fun _ => rfl, fun _ => rfl⟩

/-- C4 (counterexample): on a raw row whose `grade3` label is `"Mixed"`
(non-missing but outside the three known labels), the lab-7 `transform`
produces a clean row with a missing target: the label remapping does
introduce a missing value. -/
theorem transform_unknown_label_yields_missing_target :
    Lab7.RawDataPreprocessor.transformedData
        [⟨none, none, none, none, none, none, none, some "Mixed", some "review text"⟩]
      = [⟨some "review text", none⟩] ∧
    ((Lab7.RawDataPreprocessor.transformedData
        [⟨none, none, none, none, none, none, none, some "Mixed", some "review text"⟩]).all
      fun r => r.target.isSome) = false := by
  constructor <;> decide

/-- C4 (amended): after the lab-7 `transform`, the source column has no
missing values, and the target column has none provided every non-missing
raw `grade3` label is one of the three known labels `Good`/`Bad`/`Neutral`;
no such guarantee exists for lab 8, whose `transform` drops only
duplicates, never missing rows (see the counterexample). -/
theorem transform_missing_value_guarantees :
    (∀ raw : List Lab7.RawRow, ∀ r ∈ Lab7.RawDataPreprocessor.transformedData raw,
      r.source.isSome = true) ∧
    (∀ raw : List Lab7.RawRow,
      (∀ row ∈ raw, ∀ g, row.grade3 = some g →
        g = "Good" ∨ g = "Bad" ∨ g = "Neutral") →
      ∀ r ∈ Lab7.RawDataPreprocessor.transformedData raw, r.target.isSome = true) := by
  constructor
  · intro raw r hr
    simp only [Lab7.RawDataPreprocessor.transformedData, List.mem_map,
      List.mem_filter] at hr
    obtain ⟨rc, ⟨_, hfil⟩, rfl⟩ := hr
    exact (Bool.and_eq_true .. ▸ hfil).1
  · intro raw hlab r hr
    simp only [Lab7.RawDataPreprocessor.transformedData, List.mem_map,
      List.mem_filter] at hr
    obtain ⟨rc, ⟨hmem, hfil⟩, rfl⟩ := hr
    obtain ⟨row, hrow, rfl⟩ := hmem
    have h2 : row.grade3.isSome = true := (Bool.and_eq_true .. ▸ hfil).2
    obtain ⟨g, hg⟩ := Option.isSome_iff_exists.mp h2
    rcases hlab row hrow g hg with h | h | h <;>
      simp [hg, h, Lab7.labelMap]

/-- Witness for C4's amended theorem: a single known-label row yields a
clean row with a present target code. -/
theorem transform_missing_value_guarantees_witness :
    (Lab7.CleanRow.mk (some "nice") (some 1)).target.isSome = true :=
  transform_missing_value_guarantees.2
    [⟨none, none, none, none, none, none, none, some "Good", some "nice"⟩]
    (by decide) (Lab7.CleanRow.mk (some "nice") (some 1)) (by decide)

/-- C8 (counterexample): with a configured maximum length of 5 passed as
the `max_length` argument, `tokenize_sample` still produces sequences of
length 120, not 5 — the argument is ignored. -/
theorem tokenize_sample_ignores_max_length_argument :
    (Lab8.tokenize_sample ("a", "b") (fun _ => []) 0 5).input_ids.length = 120 ∧
    ((Lab8.tokenize_sample ("a", "b") (fun _ => []) 0 5).input_ids.length == 5) = false := by
  constructor <;> decide

/-- C8 (amended): `tokenize_sample` truncates and pads the source and
target encodings to the fixed length 120, irrespective of its `max_length`
argument: its result does not depend on that argument, and input-ids,
attention-mask and labels all have length exactly 120. -/
theorem tokenize_sample_fixed_length_120 :
    ∀ (tok : String → List Nat) (padId : Nat) (sample : String × String) (maxLen : Nat),
      Lab8.tokenize_sample sample tok padId maxLen
        = Lab8.tokenize_sample sample tok padId 120 ∧
      (Lab8.tokenize_sample sample tok padId maxLen).input_ids.length = 120 ∧
      (Lab8.tokenize_sample sample tok padId maxLen).attention_mask.length = 120 ∧
      (Lab8.tokenize_sample sample tok padId maxLen).labels.length = 120 := by
  intro tok padId sample maxLen
  refine ⟨rfl, ?_, ?_, ?_⟩
  · exact (hfTokenizeMaxLength_length tok padId 120 sample.1).1
  · exact (hfTokenizeMaxLength_length tok padId 120 sample.1).2
  · exact (hfTokenizeMaxLength_length tok padId 120 sample.2).1

/-- C9: evaluating the lab-8 scorer loading at a request containing ROUGE:
one scorer is loaded per metric, but the guard
`metric == Metrics.ROUGE.value` compares an enumeration member with a
string and is never true, so ROUGE is loaded without the deterministic
seed the claim (and spec) promise. -/
theorem rouge_scorer_loaded_without_seed :
    Lab8.TaskEvaluator.metrics_dict [Lab8.Metrics.rouge, Lab8.Metrics.bleu]
      = [⟨"rouge", none⟩, ⟨"bleu", none⟩] := by
  decide

/-- C10: the prediction strings returned by lab-7 batch inference never
contain `"0"`: index 0 is rendered as `"2"` and a nonzero index `i` as the
decimal string of `i`, which is `"0"` for no nonzero `i`. -/
theorem infer_batch_never_predicts_zero_string :
    ∀ (logits : String → List ℚ) (batch : List String),
      (Lab7.LLMPipeline.inferBatch logits batch).all (fun s => s != "0") = true := by
  intro logits batch
  rw [List.all_eq_true]
  intro s hs
  simp only [Lab7.LLMPipeline.inferBatch, List.mem_map] at hs
  obtain ⟨j, _, rfl⟩ := hs
  simpa [bne_iff_ne] using remapLabel_ne_zero_string j

/-- C5: with a loaded model and a positive batch size, `infer_dataset`
returns, in both labs, the table that pairs the dataset's target column
with the model's prediction for the source text of the same row; its row
count equals the dataset length and its target column is the dataset's
target column in the original order. -/
theorem infer_dataset_row_alignment :
    (∀ (α : Type) (p : Lab7.LLMPipelineState α) (m : String → List ℚ),
      p.model = some m → 0 < p.batch_size →
      Lab7.LLMPipeline.infer_dataset p
          = .ok (p.dataset.map fun r => (r.2, Lab7.remapLabel (argmaxIdx (m r.1)))) ∧
        (p.dataset.map fun r => (r.2, Lab7.remapLabel (argmaxIdx (m r.1)))).length
          = p.dataset.length ∧
        (p.dataset.map fun r => (r.2, Lab7.remapLabel (argmaxIdx (m r.1)))).map Prod.fst
          = p.dataset.map Prod.snd) ∧
    (∀ (α : Type) (p : Lab8.LLMPipelineState α) (m : String → String),
      p.model = some m → 0 < p.batch_size →
      Lab8.LLMPipeline.infer_dataset p
          = .ok (p.dataset.map fun r => (r.2, m r.1)) ∧
        (p.dataset.map fun r => (r.2, m r.1)).length = p.dataset.length ∧
        (p.dataset.map fun r => (r.2, m r.1)).map Prod.fst
          = p.dataset.map Prod.snd) := by
  constructor
  · intro α p m hm hk
    refine ⟨?_, by simp, by simp⟩
    unfold Lab7.LLMPipeline.infer_dataset
    rw [hm]
    have hib : (toBatches p.batch_size (p.dataset.map Prod.fst)).map
          (Lab7.LLMPipeline.inferBatch m)
        = (toBatches p.batch_size (p.dataset.map Prod.fst)).map
          (List.map fun s => Lab7.remapLabel (argmaxIdx (m s))) :=
      List.map_congr_left fun b _ => by
        simp [Lab7.LLMPipeline.inferBatch, List.map_map, Function.comp]
    simp only [hib, ← List.map_flatten, toBatches_flatten p.batch_size hk,
      List.map_map]
    rw [List.zip_map']
    simp [Function.comp]
  · intro α p m hm hk
    refine ⟨?_, by simp, by simp⟩
    unfold Lab8.LLMPipeline.infer_dataset
    rw [hm]
    have hib : (toBatches p.batch_size (p.dataset.map Prod.fst)).map
          (Lab8.LLMPipeline.inferBatch m)
        = (toBatches p.batch_size (p.dataset.map Prod.fst)).map (List.map m) :=
      List.map_congr_left fun b _ => rfl
    simp only [hib, ← List.map_flatten, toBatches_flatten p.batch_size hk,
      List.map_map]
    rw [List.zip_map']
    simp [Function.comp]

/-- Witness for C5: the spec's three-row scenario with a stub model whose
logits always favour class 1 yields predictions `"1","1","1"` aligned with
targets `1, 2, 0`. -/
theorem infer_dataset_row_alignment_witness :
    Lab7.LLMPipeline.infer_dataset
        (⟨some fun _ => [0, 1, 0],
          [("good movie", 1), ("bad movie", 2), ("ok movie", 0)], 120, 64, "cpu"⟩ :
          Lab7.LLMPipelineState Nat)
      = .ok [(1, "1"), (2, "1"), (0, "1")] := by
  have h := (infer_dataset_row_alignment.1 Nat
    ⟨some fun _ => [0, 1, 0],
      [("good movie", 1), ("bad movie", 2), ("ok movie", 0)], 120, 64, "cpu"⟩
    (fun _ => [0, 1, 0]) rfl (by decide)).1
  exact h.trans (congrArg Except.ok (by decide))

/-- C6: `infer_sample` raises the designated no-model `ValueError` when the
pipeline's model field holds no model, and otherwise returns the decoded
prediction of the single-item batch containing the sample, in both labs. -/
theorem infer_sample_no_model_error_or_prediction :
    (∀ (α : Type) (p : Lab7.LLMPipelineState α) (s : String),
      (p.model = none →
        Lab7.LLMPipeline.infer_sample p s
          = .error (.valueError "There is no model")) ∧
      ∀ m, p.model = some m →
        Lab7.LLMPipeline.infer_sample p s
          = .ok ((Lab7.LLMPipeline.inferBatch m [s]).headD "") ∧
        Lab7.LLMPipeline.inferBatch m [s]
          = [Lab7.remapLabel (argmaxIdx (m s))]) ∧
    (∀ (α : Type) (p : Lab8.LLMPipelineState α) (s : String),
      (p.model = none →
        Lab8.LLMPipeline.infer_sample p s
          = .error (.valueError "There is no model")) ∧
      ∀ m, p.model = some m →
        Lab8.LLMPipeline.infer_sample p s
          = .ok ((Lab8.LLMPipeline.inferBatch m [s]).headD "") ∧
        Lab8.LLMPipeline.inferBatch m [s] = [m s]) := by
  constructor
  · intro α p s
    constructor
    · intro h
      simp [Lab7.LLMPipeline.infer_sample, h]
    · intro m hm
      refine ⟨?_, rfl⟩
      simp [Lab7.LLMPipeline.infer_sample, hm]
  · intro α p s
    constructor
    · intro h
      simp [Lab8.LLMPipeline.infer_sample, h]
    · intro m hm
      refine ⟨?_, rfl⟩
      simp [Lab8.LLMPipeline.infer_sample, hm]

/-- Witness for C6: a pipeline with no model raises the error; one with a
model returns the single-sample prediction. -/
theorem infer_sample_no_model_witness :
    Lab7.LLMPipeline.infer_sample
        (⟨none, [], 120, 64, "cpu"⟩ : Lab7.LLMPipelineState Nat) "hello"
      = .error (.valueError "There is no model") ∧
    Lab7.LLMPipeline.infer_sample
        (⟨some fun _ => [0, 1, 0], [], 120, 64, "cpu"⟩ : Lab7.LLMPipelineState Nat) "hello"
      = .ok "1" := by
  constructor
  · exact (infer_sample_no_model_error_or_prediction.1 Nat
      ⟨none, [], 120, 64, "cpu"⟩ "hello").1 rfl
  · have h := ((infer_sample_no_model_error_or_prediction.1 Nat
      ⟨some fun _ => [0, 1, 0], [], 120, 64, "cpu"⟩ "hello").2
      (fun _ => [0, 1, 0]) rfl).1
    exact h.trans (congrArg Except.ok (by decide))

/-- C7 (counterexample): the predictions file written for a one-row frame
has a header row of three columns, not two — `to_csv` is called without
`index=False`, so a leading unnamed index column precedes `target` and
`prediction`. -/
theorem predictions_csv_has_three_columns :
    ((Csv.readRows (Csv.to_csv [("1".data, "2".data)])).headD []).length = 3 ∧
    (((Csv.readRows (Csv.to_csv [("1".data, "2".data)])).headD []).length == 2)
      = false := by
  have hfile : Csv.parseCsv (Csv.to_csv [("1".data, "2".data)])
      = [Csv.predHeader, [(Nat.repr 0).data, "1".data, "2".data]] :=
    Csv.parseCsv_encodeCsv_rows _ (by decide)
  constructor <;>
    · rw [Csv.readRows, hfile]
      decide

/-- C7 (amended): the predictions file is a CSV with three columns — a
leading unnamed row-index column, then `target` and `prediction` — with
one data row per dataset item; reading it back yields exactly the written
target/prediction pairs that the Evaluator consumes (cells that contain
delimiter, quote or line-break characters are quoted by the writer and
unquoted by the reader). -/
theorem predictions_csv_round_trip :
    ∀ frame : Csv.PredFrame,
      Csv.readRows (Csv.to_csv frame) = Csv.predHeader :: Csv.predRows frame ∧
      (Csv.readRows (Csv.to_csv frame)).length = frame.length + 1 ∧
      Csv.evaluatorPairs (Csv.to_csv frame) = some frame := by
  intro frame
  have hall : ∀ r ∈ Csv.predHeader :: Csv.predRows frame, r ≠ [] := by
    intro r hr
    rcases List.mem_cons.mp hr with h | h
    · rw [h]
      decide
    · obtain ⟨ip, _, rfl⟩ := List.mem_map.mp h
      simp
  have hparse : Csv.parseCsv (Csv.to_csv frame)
      = Csv.predHeader :: Csv.predRows frame :=
    Csv.parseCsv_encodeCsv_rows _ hall
  have hfilter : (Csv.predHeader :: Csv.predRows frame).filter (fun r => r != [[]])
      = Csv.predHeader :: Csv.predRows frame := by
    rw [List.filter_eq_self]
    intro a ha
    rcases List.mem_cons.mp ha with h | h
    · rw [h]
      decide
    · obtain ⟨ip, _, rfl⟩ := List.mem_map.mp h
      simp
  have hread : Csv.readRows (Csv.to_csv frame)
      = Csv.predHeader :: Csv.predRows frame := by
    rw [Csv.readRows, hparse, hfilter]
  refine ⟨hread, by rw [hread]; simp [Csv.predRows], ?_⟩
  have hcol1 : (Csv.predRows frame).map (fun r => r.getD 1 [])
      = frame.map Prod.fst := by
    calc (Csv.predRows frame).map (fun r => r.getD 1 [])
        = frame.enum.map (fun ip => ip.2.1) := by
          rw [Csv.predRows, List.map_map]
          exact List.map_congr_left fun ip _ => rfl
      _ = (frame.enum.map Prod.snd).map Prod.fst := by
          rw [List.map_map]
          rfl
      _ = frame.map Prod.fst := by rw [List.enum_map_snd]
  have hcol2 : (Csv.predRows frame).map (fun r => r.getD 2 [])
      = frame.map Prod.snd := by
    calc (Csv.predRows frame).map (fun r => r.getD 2 [])
        = frame.enum.map (fun ip => ip.2.2) := by
          rw [Csv.predRows, List.map_map]
          exact List.map_congr_left fun ip _ => rfl
      _ = (frame.enum.map Prod.snd).map Prod.snd := by
          rw [List.map_map]
          rfl
      _ = frame.map Prod.snd := by rw [List.enum_map_snd]
  have hct : Csv.readColumn (Csv.to_csv frame) ColumnNames.TARGET.data
      = some (frame.map Prod.fst) := by
    simp only [Csv.readColumn, hread]
    rw [show List.indexOf? ColumnNames.TARGET.data Csv.predHeader = some 1 from by decide]
    exact congrArg some hcol1
  have hcp : Csv.readColumn (Csv.to_csv frame) ColumnNames.PREDICTION.data
      = some (frame.map Prod.snd) := by
    simp only [Csv.readColumn, hread]
    rw [show List.indexOf? ColumnNames.PREDICTION.data Csv.predHeader = some 2 from by decide]
    exact congrArg some hcol2
  rw [Csv.evaluatorPairs, hct, hcp]
  show some ((frame.map Prod.fst).zip (frame.map Prod.snd)) = some frame
  rw [List.zip_map']
  simp

end HelloLLM
